import Mathlib

/-!
Verification development for the frp-python reverse-proxy tunnel.

The Python sources are shallowly embedded: bytes are `Nat` values below 256,
byte strings are `List Nat`, Python dicts are association lists, Python sets
are `Finset Nat`, and the network/OS is an oracle parameter (`probe`,
`bindOk`, `ready`).  Each definition is translated from a named function of
the repository; the mutexes that serialize the Python handlers are elided,
so a definition describes the sequential effect of one handler invocation.
-/

namespace Frp

/-! ### Byte-level integer encodings

`struct.pack`/`struct.unpack` with format `'!i'` (big-endian signed 32-bit)
and `'i'` (native byte order; little-endian on the x86/ARM hosts this
repository targets).  Used by every control channel.
-/

/-- The big-endian 4-byte representation of a 32-bit value, written with
plain base-256 digits.  This is the phrasing of the specification
("the 4 bytes on the wire are the big-endian representation of the value"). -/
def beBytes32 (n : Nat) : List Nat :=
  [n / 16777216 % 256, n / 65536 % 256, n / 256 % 256, n % 256]

/-- `struct.pack('!i', x)`: big-endian two's-complement encoding of a signed
32-bit integer, as in `frps_standalone.py`, `frpc_standalone.py`,
`frps_quic.py` and `frpc_quic.py`. -/
def packBangI (x : Int) : List Nat :=
  let u := (x % 4294967296).toNat
  [u >>> 24 % 256, u >>> 16 % 256, u >>> 8 % 256, u % 256]

/-- `struct.pack('i', x)` on a little-endian host: the native byte order used
by the legacy TCP dialect (`frpc.py` line 125/150, `frps.py` line 150). -/
def packNativeI (x : Int) : List Nat :=
  let u := (x % 4294967296).toNat
  [u % 256, u >>> 8 % 256, u >>> 16 % 256, u >>> 24 % 256]

/-- The unsigned 32-bit word held by the first four bytes of a buffer
(big-endian).  Helper for `unpackBangI`. -/
def be32word : List Nat → Nat
  | b0 :: b1 :: b2 :: b3 :: _ => ((b0 * 256 + b1) * 256 + b2) * 256 + b3
  | _ => 0

/-- `struct.unpack('!i', b)[0]` on a 4-byte buffer: big-endian signed 32-bit
decode, as used by every reader of the standalone and QUIC control channels. -/
def unpackBangI (b : List Nat) : Int :=
  let u := be32word b
  if u < 2147483648 then (u : Int) else (u : Int) - 4294967296

/-! ### Association lists

Python dicts are modelled as association lists: assignment replaces the
binding in place (or appends a fresh one), `del` removes it.  All dicts in
the sources are keyed without duplicates.
-/

/-- `m[k]` lookup (`None` when absent). -/
def alookup {κ α : Type} [BEq κ] : List (κ × α) → κ → Option α
  | [], _ => none
  | e :: rest, k => if e.1 == k then some e.2 else alookup rest k

/-- `m[k] = v`: replace the binding for `k` in place, or append it. -/
def aset {κ α : Type} [BEq κ] : List (κ × α) → κ → α → List (κ × α)
  | [], k, v => [(k, v)]
  | e :: rest, k, v => if e.1 == k then (k, v) :: rest else e :: aset rest k v

/-- `del m[k]`: drop the binding for `k`. -/
def aerase {κ α : Type} [BEq κ] : List (κ × α) → κ → List (κ × α)
  | [], _ => []
  | e :: rest, k => if e.1 == k then aerase rest k else e :: aerase rest k

/-! ### Python byte-string slicing

`b[i:j]` and `b[i:]` with Python's normalization of negative and
out-of-range indices. -/

/-- Normalize a Python slice index against a buffer of length `n`. -/
def pyIdx (n : Nat) (i : Int) : Nat :=
  if i < 0 then (i + n).toNat else min i.toNat n

/-- Python `b[i:j]`. -/
def pySlice (b : List Nat) (i j : Int) : List Nat :=
  (b.take (pyIdx b.length j)).drop (pyIdx b.length i)

/-- Python `b[i:]`. -/
def pySliceFrom (b : List Nat) (i : Int) : List Nat :=
  b.drop (pyIdx b.length i)

/-! ### UTF-8 codec

`payload.decode('utf-8', errors='ignore')` and `str.encode('utf-8')` as used
by `FrpcQuicProtocol._rewrite_http_headers`.  The decoder follows the UTF-8
validation CPython applies (no overlongs, no surrogates, max U+10FFFF);
`errors='ignore'` drops the maximal subpart of an invalid sequence and
resumes at the next byte. -/

/-- A UTF-8 continuation byte. -/
def isCont (b : Nat) : Bool := decide (128 ≤ b ∧ b ≤ 191)

/-- Admissible second byte of a 3-byte sequence starting with `b0`. -/
def utf8Cont2Ok (b0 b1 : Nat) : Bool :=
  if b0 = 224 then decide (160 ≤ b1 ∧ b1 ≤ 191)
  else if b0 = 237 then decide (128 ≤ b1 ∧ b1 ≤ 159)
  else isCont b1

/-- Admissible second byte of a 4-byte sequence starting with `b0`. -/
def utf8Cont4Ok (b0 b1 : Nat) : Bool :=
  if b0 = 240 then decide (144 ≤ b1 ∧ b1 ≤ 191)
  else if b0 = 244 then decide (128 ≤ b1 ∧ b1 ≤ 143)
  else isCont b1

/-- `bytes.decode('utf-8', errors='ignore')`, one step per fuel unit; each
step consumes at least one byte, so fuel equal to the byte count is exact. -/
def utf8DecodeIgnoreF : Nat → List Nat → List Char
  | 0, _ => []
  | fuel + 1, l =>
    match l with
    | [] => []
    | b0 :: rest =>
      if b0 < 128 then
        Char.ofNat b0 :: utf8DecodeIgnoreF fuel rest
      else if 194 ≤ b0 ∧ b0 ≤ 223 then
        match rest with
        | [] => []
        | b1 :: rest1 =>
          if isCont b1 then
            Char.ofNat ((b0 - 192) * 64 + (b1 - 128)) :: utf8DecodeIgnoreF fuel rest1
          else utf8DecodeIgnoreF fuel rest
      else if 224 ≤ b0 ∧ b0 ≤ 239 then
        match rest with
        | [] => []
        | b1 :: rest1 =>
          if utf8Cont2Ok b0 b1 then
            match rest1 with
            | [] => []
            | b2 :: rest2 =>
              if isCont b2 then
                Char.ofNat (((b0 - 224) * 64 + (b1 - 128)) * 64 + (b2 - 128)) ::
                  utf8DecodeIgnoreF fuel rest2
              else utf8DecodeIgnoreF fuel rest1
          else utf8DecodeIgnoreF fuel rest
      else if 240 ≤ b0 ∧ b0 ≤ 244 then
        match rest with
        | [] => []
        | b1 :: rest1 =>
          if utf8Cont4Ok b0 b1 then
            match rest1 with
            | [] => []
            | b2 :: rest2 =>
              if isCont b2 then
                match rest2 with
                | [] => []
                | b3 :: rest3 =>
                  if isCont b3 then
                    Char.ofNat
                        ((((b0 - 240) * 64 + (b1 - 128)) * 64 + (b2 - 128)) * 64 + (b3 - 128)) ::
                      utf8DecodeIgnoreF fuel rest3
                  else utf8DecodeIgnoreF fuel rest2
              else utf8DecodeIgnoreF fuel rest1
          else utf8DecodeIgnoreF fuel rest
      else utf8DecodeIgnoreF fuel rest

/-- `bytes.decode('utf-8', errors='ignore')`. -/
def utf8DecodeIgnore (l : List Nat) : List Char := utf8DecodeIgnoreF l.length l

/-- `str.encode('utf-8')` for a single character. -/
def utf8EncodeChar (c : Char) : List Nat :=
  let n := c.toNat
  if n < 128 then [n]
  else if n < 2048 then [192 + n / 64, 128 + n % 64]
  else if n < 65536 then [224 + n / 4096, 128 + n / 64 % 64, 128 + n % 64]
  else [240 + n / 262144, 128 + n / 4096 % 64, 128 + n / 64 % 64, 128 + n % 64]

/-- `str.encode('utf-8')`. -/
def utf8Encode (cs : List Char) : List Nat := cs.flatMap utf8EncodeChar

/-! ### HTTP header rewriting

`FrpcQuicProtocol._rewrite_http_headers`
(version_quic_pure_python/frpc_quic.py lines 271-308), applied by the QUIC
Agent to every decoded record payload before it is written to the target
socket. -/

/-- `str.lower()` restricted to ASCII.  (Python's `lower` is full Unicode;
only the ASCII header names compared below are affected here.) -/
def toLowerAscii (c : Char) : Char :=
  if 65 ≤ c.toNat ∧ c.toNat ≤ 90 then Char.ofNat (c.toNat + 32) else c

/-- Python `s.split('\r\n')`. -/
def splitCRLF : List Char → List (List Char)
  | [] => [[]]
  | '\r' :: '\n' :: rest => [] :: splitCRLF rest
  | c :: rest =>
    match splitCRLF rest with
    | [] => [[c]]
    | h :: t => (c :: h) :: t

/-- Python `'\r\n'.join(lines)`. -/
def joinCRLF : List (List Char) → List Char
  | [] => []
  | [l] => l
  | l :: rest => l ++ '\r' :: '\n' :: joinCRLF rest

/-- The HTTP method tokens checked by `payload_str.startswith((...))`. -/
def methodTokens : List (List Char) :=
  [("GET ").data, ("POST ").data, ("PUT ").data, ("DELETE ").data,
   ("HEAD ").data, ("OPTIONS ").data, ("PATCH ").data]

/-- Does the decoded payload start with one of the HTTP method tokens? -/
def httpMethodStart (s : List Char) : Bool :=
  methodTokens.any (fun t => t.isPrefixOf s)

/-- The `headers_to_rewrite` table. -/
def headersToRewrite : List (List Char × List Char) :=
  [(("host:").data, ("127.0.0.1").data),
   (("origin:").data, ("http://127.0.0.1:5212").data),
   (("referer:").data, ("http://127.0.0.1:5212/").data)]

/-- The per-line body of the rewriting loop: the first table entry whose key
prefixes the lowercased line replaces the line by
`f'{header_name}: {value}'`. -/
def transformHeaderLine (line : List Char) : List Char :=
  let ll := line.map toLowerAscii
  match headersToRewrite.find? (fun hv => hv.1.isPrefixOf ll) with
  | some hv =>
    let headerName :=
      if line.contains ':' then line.takeWhile (fun c => ¬ c = ':') else hv.1
    headerName ++ (": ").data ++ hv.2
  | none => line

/-- The `for i, line in enumerate(lines)` loop: rewrite each header line up
to the first empty line (the blank separating headers from the body). -/
def rewriteLines : List (List Char) → List (List Char)
  | [] => []
  | l :: rest => if l = [] then l :: rest else transformHeaderLine l :: rewriteLines rest

/-- `FrpcQuicProtocol._rewrite_http_headers(payload)`. -/
def rewriteHttpHeaders (payload : List Nat) : List Nat :=
  if payload.length < 16 then payload
  else
    let s := utf8DecodeIgnore payload
    if httpMethodStart s = false then payload
    else
      let lines := splitCRLF s
      if lines.length < 2 then payload
      else utf8Encode (joinCRLF (rewriteLines lines))

/-! ### QUIC data-stream record processing

The Relay side (`FrpQuicProtocol._handle_data_stream`, frps_quic.py lines
84-118) appends the chunk to `stream_buffers[stream_id]` and decodes
complete records from the front; the loop is reproduced byte for byte,
including the signed `'!i'` decode of the length field and the
`struct.error`/`sendall` exception path that clears the buffer.  The Agent
side (`FrpcQuicProtocol._handle_data_stream`, frpc_quic.py lines 244-269)
decodes each chunk on its own, with no reassembly buffer.

Both loops advance an offset by `8 + data_len` per iteration; the fuel
argument bounds the number of iterations (one full buffer length is ample
for every run in which length fields are non-negative; a hostile negative
length field could make the Python loop spin forever, which the fuel
truncates). -/

/-- The record-decoding loop of `FrpQuicProtocol._handle_data_stream`:
`while offset + 8 <= len(buffer)` with payload writes to the user socket.
Returns the written payloads and the final value of
`stream_buffers[stream_id]` (cleared to `b''` by the `except` branch). -/
def relayLoopF : Nat → List Nat → Int → List (List Nat) × List Nat
  | 0, b, off => ([], pySliceFrom b off)
  | fuel + 1, b, off =>
    if off + 8 ≤ (b.length : Int) then
      let hdr := pySlice b off (off + 4)
      if hdr.length = 4 then
        let dl := unpackBangI hdr
        if (b.length : Int) < off + 8 + dl then
          ([], pySliceFrom b off)
        else
          let cid := pySlice b (off + 4) (off + 8)
          if cid.length = 4 then
            let payload := pySlice b (off + 8) (off + 8 + dl)
            let rest := relayLoopF fuel b (off + 8 + dl)
            (payload :: rest.1, rest.2)
          else ([], [])
      else ([], [])
    else ([], pySliceFrom b off)

/-- Relay receive step for one stream: `buf` is the current reassembly
buffer, `chunk` the newly delivered stream data; the chunk is appended and
the loop is run from offset 0.  Result: payloads written to the user
socket, and the retained buffer. -/
def relayHandleDataChunk (buf chunk : List Nat) : List (List Nat) × List Nat :=
  let buffer := buf ++ chunk
  relayLoopF (buffer.length + 1) buffer 0

/-- The record loop of the Agent's `FrpcQuicProtocol._handle_data_stream`:
`while offset < len(data)`, no reassembly buffer; each payload is passed
through `_rewrite_http_headers` and written to the target socket.  A record
whose payload is not fully contained in the chunk is still written
(truncated by the slice) and the loop moves past its nominal end. -/
def agentLoopF : Nat → List Nat → Int → List (List Nat)
  | 0, _, _ => []
  | fuel + 1, data, off =>
    if off < (data.length : Int) then
      if (data.length : Int) < off + 8 then []
      else
        let hdr := pySlice data off (off + 4)
        if hdr.length = 4 then
          let dl := unpackBangI hdr
          let cid := pySlice data (off + 4) (off + 8)
          if cid.length = 4 then
            let payload := pySlice data (off + 8) (off + 8 + dl)
            rewriteHttpHeaders payload :: agentLoopF fuel data (off + 8 + dl)
          else []
        else []
    else []

/-- Agent receive step for one chunk: payloads written to the target socket
(after header rewriting).  There is no buffer to retain. -/
def agentHandleDataChunk (data : List Nat) : List (List Nat) :=
  agentLoopF (data.length + 1) data 0

/-- Modelled from the spec: the framing words of §4.9 — a data stream is a
sequence of records `{len:u32, conn_id:u32, bytes[len]}`, and "payload bytes
are written to the peer's socket only when a full frame is present", the
partial frame staying in the reassembly buffer.  Greedy decode of the
complete records at the front of a buffer; returns their payloads and the
partial remainder. -/
def decodeRecordsSpecF : Nat → List Nat → List (List Nat) × List Nat
  | 0, b => ([], b)
  | fuel + 1, b =>
    if 8 ≤ b.length then
      let dl := be32word (b.take 4)
      if dl < 2147483648 ∧ 8 + dl ≤ b.length then
        let rest := decodeRecordsSpecF fuel (b.drop (8 + dl))
        ((b.drop 8).take dl :: rest.1, rest.2)
      else ([], b)
    else ([], b)

/-- The record decoder at its canonical fuel (each decoded record consumes
at least 8 bytes, so `b.length + 1` steps always suffice). -/
def decodeRecordsSpec (b : List Nat) : List (List Nat) × List Nat :=
  decodeRecordsSpecF (b.length + 1) b

/-- Streams whose successive length fields are non-negative (`'!i'` decodes
them as the plain unsigned value): the domain on which the imperative relay
loop is compared with the record decoder. -/
def wfStreamF : Nat → List Nat → Bool
  | 0, _ => true
  | fuel + 1, b =>
    if 8 ≤ b.length then
      let dl := be32word (b.take 4)
      decide (dl < 2147483648) &&
        (if 8 + dl ≤ b.length then wfStreamF fuel (b.drop (8 + dl)) else true)
    else true

/-- The well-formedness check at its canonical fuel. -/
def wfStream (b : List Nat) : Bool := wfStreamF (b.length + 1) b

/-! ### Incremental port scanner

`PortScanner.scan_incremental` exists in two variants:
`frpc_standalone.py` lines 251-291 (batch 1000) and
`version_quic_pure_python/frpc_quic.py` lines 366-415 (batch 20000).
The network is abstracted by `probe : Nat → Bool` (the outcome of
`check_port` for each probed port); `scan_ports_fast` then returns exactly
the probed ports for which `probe` is true. -/

/-- `self.active_ports`, `self.scanned_ports`, `self.scan_cursor`. -/
structure ScannerState where
  activePorts : Finset Nat
  scannedPorts : Finset Nat
  scanCursor : Nat
deriving DecidableEq

/-- The outcome of one incremental scan: the `new`/`closed` events handed to
`on_port_change` (one event per member; Python set iteration order is
unspecified) and the actually probed half-open range. -/
structure ScanOutcome where
  newPorts : Finset Nat
  closedPorts : Finset Nat
  probedLo : Nat
  probedHi : Nat
deriving DecidableEq

/-- `set(self.scan_ports_fast(host, list(range(lo, hi))))`. -/
def scanRangePorts (lo hi : Nat) (probe : Nat → Bool) : Finset Nat :=
  (Finset.Ico lo hi).filter (fun p => probe p = true)

/-- `frpc_standalone.py` batch size. -/
def tcpBatchSize : Nat := 1000

/-- `frpc_quic.py` batch size. -/
def quicBatchSize : Nat := 20000

/-- `PortScanner.scan_incremental` of `frpc_standalone.py`.  Note that the
final `self.scan_cursor = end_port` (line 282 of the source, executed inside
the lock) uses `end_port` computed from the cursor *before* the wrap reset,
and that the diff `closed_ports = self.active_ports - current_active` ranges
over the whole committed set while `current_active` only contains ports of
the probed batch; `self.active_ports` is then replaced by `current_active`. -/
def scanIncrementalTcp (probe : Nat → Bool) (s : ScannerState) :
    ScanOutcome × ScannerState :=
  let startPort := s.scanCursor
  let endPort := min (s.scanCursor + tcpBatchSize) 65536
  let wrapped := endPort ≤ startPort
  let lo := if wrapped then 1 else startPort
  let hi := if wrapped then min (tcpBatchSize + 1) 65536 else endPort
  let currentActive := scanRangePorts lo hi probe
  let newPorts := currentActive \ s.activePorts
  let closedPorts := s.activePorts \ currentActive
  (⟨newPorts, closedPorts, lo, hi⟩,
   ⟨currentActive, s.scannedPorts ∪ currentActive, endPort⟩)

/-- `PortScanner.scan_incremental` of
`version_quic_pure_python/frpc_quic.py`.  The `closed` diff is scoped by
`start_port <= port < end_port` (the pre-wrap values) and additionally
skips every port present in the accumulated `self.scanned_ports` history;
`self.active_ports` is updated by `update(batch_active)` followed by
`discard` of each closed port.  The final `self.scan_cursor = end_port`
again uses the pre-wrap `end_port`. -/
def scanIncrementalQuic (probe : Nat → Bool) (s : ScannerState) :
    ScanOutcome × ScannerState :=
  let startPort := s.scanCursor
  let endPort := min (s.scanCursor + quicBatchSize) 65536
  let wrapped := endPort ≤ startPort
  let lo := if wrapped then 1 else startPort
  let hi := if wrapped then min (quicBatchSize + 1) 65536 else endPort
  let batchActive := scanRangePorts lo hi probe
  let newPorts := batchActive \ s.activePorts
  let closedPorts := s.activePorts.filter
    (fun p => startPort ≤ p ∧ p < endPort ∧ p ∉ batchActive ∧ p ∉ s.scannedPorts)
  (⟨newPorts, closedPorts, lo, hi⟩,
   ⟨(s.activePorts ∪ batchActive) \ closedPorts,
    s.scannedPorts ∪ batchActive, endPort⟩)

/-! ### Relay port registry, TCP standalone variant

`ProxyManager` of `frps_standalone.py` (lines 230-388).  `user_queues[p]`
holds the accepted user sockets awaiting a data connection (modelled by
ids); `port_listeners[p]` records the owning control connection.  The
single `self.lock` serializing the methods is elided (note: it is a
non-reentrant `threading.Lock`, and `unregister_frpc` and `check_timeouts`
re-acquire it through their callees — see the C3 discussion). -/

/-- One entry of `self.frpc_connections`. -/
structure TcpSession where
  ports : Finset Nat
  lastHeartbeat : Nat
deriving DecidableEq

/-- The `ProxyManager` state. -/
structure PMState where
  sessions : List (Nat × TcpSession)
  listeners : List (Nat × Nat)
  queues : List (Nat × List Nat)
deriving DecidableEq

/-- `ProxyManager.register_frpc`. -/
def pmRegisterFrpc (now connId : Nat) (s : PMState) : PMState :=
  { s with sessions := aset s.sessions connId ⟨∅, now⟩ }

/-- `ProxyManager.register_port` (lines 264-296).  `bindOk` abstracts the
success of `socket.bind(('0.0.0.0', port))`. -/
def pmRegisterPort (bindOk : Bool) (connId port : Nat) (s : PMState) :
    Bool × PMState :=
  match alookup s.sessions connId with
  | none => (false, s)
  | some info =>
    if (alookup s.listeners port).isSome then (false, s)
    else if bindOk then
      (true,
       { sessions := aset s.sessions connId ⟨insert port info.ports, info.lastHeartbeat⟩
         listeners := aset s.listeners port connId
         queues := aset s.queues port [] })
    else (false, s)

/-- `ProxyManager.unregister_port` (lines 298-325): close the listener,
close and drop the queued users, remove both mappings, and discard the port
from the owning session's set.  Idempotent when the port is unknown. -/
def pmUnregisterPort (port : Nat) (s : PMState) : PMState :=
  match alookup s.listeners port with
  | none => s
  | some owner =>
    { sessions :=
        match alookup s.sessions owner with
        | some info => aset s.sessions owner ⟨info.ports.erase port, info.lastHeartbeat⟩
        | none => s.sessions
      listeners := aerase s.listeners port
      queues := aerase s.queues port }

/-- `ProxyManager.unregister_frpc` (lines 250-262): unregister every owned
port (a snapshot `list(frpc_info['ports'])` is iterated; Python's set
iteration order is unspecified, realized here as ascending order), close the
control socket, delete the session. -/
def pmUnregisterFrpc (connId : Nat) (s : PMState) : PMState :=
  match alookup s.sessions connId with
  | none => s
  | some info =>
    let s1 := (info.ports.sort (· ≤ ·)).foldl (fun acc p => pmUnregisterPort p acc) s
    { s1 with sessions := aerase s1.sessions connId }

/-- `ProxyManager.add_user_conn`: enqueue an accepted user at the tail. -/
def pmAddUserConn (port user : Nat) (s : PMState) : Bool × PMState :=
  match alookup s.queues port with
  | some q => (true, { s with queues := aset s.queues port (q ++ [user]) })
  | none => (false, s)

/-- `ProxyManager.get_user_conn`: dequeue the oldest pending user
(`pop(0)`). -/
def pmGetUserConn (port : Nat) (s : PMState) : Option Nat × PMState :=
  match alookup s.queues port with
  | some (u :: restQ) => (some u, { s with queues := aset s.queues port restQ })
  | _ => (none, s)

/-- `ProxyManager.update_heartbeat`. -/
def pmUpdateHeartbeat (now connId : Nat) (s : PMState) : PMState :=
  match alookup s.sessions connId with
  | some info => { s with sessions := aset s.sessions connId ⟨info.ports, now⟩ }
  | none => s

/-- The control frames the standalone Relay dispatches on
(`Frps.handle_frpc_data`, frps_standalone.py lines 471-518). -/
inductive TcpCtrlFrame
  | heartbeat
  | registerPort (port : Nat)
  | unregisterPort (port : Nat)
deriving DecidableEq

/-- `Frps.handle_frpc_data` on one complete inbound frame: the state
transition and the reply bytes written back on the control socket.
CMD codes of the standalone dialect: HEARTBEAT=1, REGISTER_PORT=3,
UNREGISTER_PORT=4. -/
def frpsHandleFrpcData (now : Nat) (bindOk : Bool) (connId : Nat)
    (f : TcpCtrlFrame) (s : PMState) : PMState × List Nat :=
  match f with
  | .heartbeat => (pmUpdateHeartbeat now connId s, packBangI 1)
  | .registerPort port =>
    let r := pmRegisterPort bindOk connId port s
    (r.2, packBangI 3 ++ packBangI (if r.1 then (port : Int) else 0))
  | .unregisterPort port =>
    (pmUnregisterPort port s, packBangI 4 ++ packBangI port)

/-! ### Relay registry, legacy TCP dialect

`ProxyManager` of `frps.py` (lines 42-95) and the frame dispatch of
`Frps.handle_frpc_data` (lines 172-199).  The legacy dialect keys sessions
by proxy name (always `'default'`), and its cmd 1 doubles as registration
and heartbeat. -/

/-- One entry of the legacy `self.active_frps`. -/
structure LegacySession where
  userQueue : List Nat
  lastHeartbeat : Nat
deriving DecidableEq

/-- The legacy `ProxyManager` state. -/
structure LegacyState where
  activeFrps : List (String × LegacySession)
deriving DecidableEq

/-- Legacy `ProxyManager.register_frpc` (lines 47-54): installs a fresh
session record with an *empty* `user_queue` deque. -/
def legacyRegisterFrpc (now : Nat) (name : String) (s : LegacyState) : LegacyState :=
  ⟨aset s.activeFrps name ⟨[], now⟩⟩

/-- Legacy `ProxyManager.get_user_conn`: `popleft` of the pending queue. -/
def legacyGetUserConn (name : String) (s : LegacyState) : Option Nat × LegacyState :=
  match alookup s.activeFrps name with
  | some info =>
    match info.userQueue with
    | u :: restQ => (some u, ⟨aset s.activeFrps name ⟨restQ, info.lastHeartbeat⟩⟩)
    | [] => (none, s)
  | none => (none, s)

/-- Legacy `ProxyManager.add_user_conn`: append the accepted user at the
tail of the pending queue (`accept_user_connection` path). -/
def legacyAddUserConn (name : String) (user : Nat) (s : LegacyState) :
    Bool × LegacyState :=
  match alookup s.activeFrps name with
  | some info =>
    (true, ⟨aset s.activeFrps name ⟨info.userQueue ++ [user], info.lastHeartbeat⟩⟩)
  | none => (false, s)

/-- Legacy `Frps.handle_frpc_data` on one inbound 4-byte command word:
cmd 1 (the heartbeat the legacy Agent sends every 5 s, `frpc.py` line 150)
re-registers the `'default'` proxy; cmd 2 dequeues the oldest pending user
and pairs it with this data connection.  Returns the new state and the
dequeued user, if any. -/
def legacyHandleFrpcData (now : Nat) (cmd : Int) (s : LegacyState) :
    LegacyState × Option Nat :=
  if cmd = 1 then (legacyRegisterFrpc now ("default") s, none)
  else if cmd = 2 then
    let r := legacyGetUserConn ("default") s
    (r.2, r.1)
  else (s, none)

/-! ### QUIC Relay: registration handler, event dispatch, ACK wait

`FrpQuicProtocol` of `frps_quic.py`.  CMD codes of the QUIC dialect:
HEARTBEAT=1, REGISTER_PORT=2, UNREGISTER_PORT=3, CONNECTION=4,
CONNECTION_ACK=5. -/

/-- The per-connection state of `FrpQuicProtocol` that the modelled
handlers touch: the keys of `port_listeners` and the `stream_ready` set. -/
structure QuicRelayState where
  portListeners : Finset Nat
  streamReady : Finset Nat
deriving DecidableEq

/-- `FrpQuicProtocol._handle_register_port` (frps_quic.py lines 138-178):
when the port is not held and the bind succeeds, install a listener and
echo `CMD_REGISTER_PORT, port`; when the bind fails, reply with the port
field `0`; when the port is already held (`already_registered`), leave the
registry unchanged and echo `CMD_REGISTER_PORT, port` (lines 175-178).
Returns the new state and the reply bytes sent on the control stream. -/
def quicHandleRegisterPort (bindOk : Bool) (s : QuicRelayState) (port : Nat) :
    QuicRelayState × List Nat :=
  if port ∉ s.portListeners then
    if bindOk then
      ({ s with portListeners := insert port s.portListeners },
       packBangI 2 ++ packBangI port)
    else (s, packBangI 2 ++ packBangI 0)
  else (s, packBangI 2 ++ packBangI port)

/-- `FrpQuicProtocol._handle_unregister_port` (lines 180-194). -/
def quicHandleUnregisterPort (s : QuicRelayState) (port : Nat) :
    QuicRelayState × List Nat :=
  if port ∈ s.portListeners then
    ({ s with portListeners := s.portListeners.erase port },
     packBangI 3 ++ packBangI port)
  else (s, [])

/-- The QUIC events dispatched by `FrpQuicProtocol.quic_event_received`. -/
inductive QuicEventModel
  | streamDataReceived (streamId : Nat) (data : List Nat)
  | connectionTerminated (errorCode : Nat)
deriving DecidableEq

/-- `FrpQuicProtocol.quic_event_received` (frps_quic.py lines 56-60): a
`StreamDataReceived` event schedules `handle_stream_data` as a task (no
synchronous state change); a `ConnectionTerminated` event only logs
`'QUIC connection terminated: ...'` — no listener is closed, no port is
unregistered, no stream binding is torn down. -/
def quicEventReceived (s : QuicRelayState) (e : QuicEventModel) : QuicRelayState :=
  match e with
  | .streamDataReceived _ _ => s
  | .connectionTerminated _ => s

/-- Number of ACK polls in `PortListener._forward_data_with_wait`
(`for _ in range(50)`), each preceded by `time.sleep(0.1)`: up to 5 s. -/
def ackWaitPolls : Nat := 50

/-- Outcome of `PortListener._forward_data_with_wait`. -/
inductive AckWaitResult
  | userClosed
  | forwardingStarts
deriving DecidableEq

/-- `PortListener._forward_data_with_wait` (frps_quic.py lines 259-273).
`ready i` tells whether `stream_id in self.protocol.stream_ready` holds at
the `i`-th poll (i = 1..50); the loop breaks at the first poll that finds
the stream ready, and the membership test after the loop is evaluated at
the moment the loop ends (the break poll, or poll 50 on exhaustion).
If the stream is not ready there, the user socket is closed and
`_forward_data` is never called; otherwise forwarding starts. -/
def forwardDataWithWait (ready : Nat → Bool) : AckWaitResult :=
  let firstHit := (List.range ackWaitPolls).find? (fun i => ready (i + 1))
  let readyAtCheck :=
    match firstHit with
    | some i => ready (i + 1)
    | none => ready ackWaitPolls
  if readyAtCheck then .forwardingStarts else .userClosed

/-! ### Agent reconnection

`Frpc.connect_to_server` (frpc_standalone.py lines 381-419) and
`FrpcQuicClient.connect` (frpc_quic.py lines 507-545). -/

/-- The frames written on the control socket by one successful
`Frpc.connect_to_server` attempt: the initial heartbeat
(`pack('!i', CMD_HEARTBEAT)`), then — after the 0.5 s settle sleep, under
the lock — `send_register_port(port)` for every port of the snapshot
`list(self.registered_ports)` (CMD_REGISTER_PORT=3 in this dialect).
`registered` is that snapshot. -/
def connectSuccessFrames (registered : List Nat) : List (List Nat) :=
  packBangI 1 :: registered.map (fun p : Nat => packBangI 3 ++ packBangI p)

/-- The successive actions of `FrpcQuicClient.connect` after the QUIC
handshake, in program order. -/
inductive QuicClientStep
  | openControlStream
  | startHeartbeatLoop
  | settleDelay
  | sendRegisterPort (port : Nat)
  | startPortMonitor
  | startQueueProcessor
  | keepAlive
deriving DecidableEq

/-- `FrpcQuicClient.connect` (frpc_quic.py lines 523-545): allocate the
control stream, start the heartbeat task, sleep 1 s, run
`_re_register_ports` to completion (one `register_port` — hence one
REGISTER_PORT frame — per port of `self.protocol.registered_ports`,
realized in ascending order), sleep 1 s, then start the scanner monitor
task and the port-change queue processor, and enter the keep-alive loop.
`registered` is the `registered_ports` set of the protocol object that
`self.protocol` is bound to when `_re_register_ports` runs — the fresh
protocol `connect` itself just created, not the pre-disconnect one. -/
def quicConnectTrace (registered : List Nat) : List QuicClientStep :=
  [.openControlStream, .startHeartbeatLoop, .settleDelay]
    ++ registered.map QuicClientStep.sendRegisterPort
    ++ [.settleDelay, .startPortMonitor, .startQueueProcessor, .keepAlive]

/-- The `registered_ports` of a freshly constructed `FrpcQuicProtocol`:
`self.registered_ports: Set[int] = set()` (frpc_quic.py line 49).  Every
`FrpcQuicClient.connect` — including the `_reconnect` path — rebinds
`self.protocol` to a fresh protocol via `create_protocol`
(lines 520-528) before `_re_register_ports` iterates
`self.protocol.registered_ports` (line 566), so on a reconnect this empty
set is the one iterated. -/
def quicFreshProtocolRegisteredPorts : List Nat := []

/-- The lower bound of the range actually probed by `scan_incremental`:
`start_port`, or 1 when `list(range(start_port, end_port))` was empty (the
wrap branch). -/
def scanBatchLo (batch cursor : Nat) : Nat :=
  if min (cursor + batch) 65536 ≤ cursor then 1 else cursor

/-- The (exclusive) upper bound of the range actually probed by
`scan_incremental`. -/
def scanBatchHi (batch cursor : Nat) : Nat :=
  if min (cursor + batch) 65536 ≤ cursor then min (batch + 1) 65536
  else min (cursor + batch) 65536

/-- The heartbeat frame of the legacy TCP dialect: `struct.pack('i', 1)`
(`frpc.py` line 150, parsed with `struct.unpack('i', ...)` in `frps.py`
line 182), issued with native byte order — little-endian on the hosts this
repository targets — unlike every `'!i'` frame of the other variants. -/
def legacyHeartbeatFrame : List Nat := packNativeI 1

/-! ## Helper lemmas -/

theorem alookup_aset_self {κ α : Type} [BEq κ] [LawfulBEq κ]
    (m : List (κ × α)) (k : κ) (v : α) : alookup (aset m k v) k = some v := by
  induction m with
  | nil => simp [aset, alookup]
  | cons e rest ih =>
    by_cases h : e.1 == k
    · simp [aset, h, alookup]
    · simp [aset, h, alookup, ih]

theorem alookup_aerase_self {κ α : Type} [BEq κ] [LawfulBEq κ]
    (m : List (κ × α)) (k : κ) : alookup (aerase m k) k = none := by
  induction m with
  | nil => simp [aerase, alookup]
  | cons e rest ih =>
    by_cases h : e.1 == k
    · simp [aerase, h, ih]
    · simp [aerase, h, alookup, ih]

theorem alookup_aerase_of_none {κ α : Type} [BEq κ] [LawfulBEq κ]
    (m : List (κ × α)) (k j : κ) (h : alookup m j = none) :
    alookup (aerase m k) j = none := by
  induction m with
  | nil => exact h
  | cons e rest ih =>
    by_cases hk : e.1 == k
    · simp only [alookup] at h
      by_cases hj : e.1 == j
      · simp [hj] at h
      · simp only [hj] at h
        simp [aerase, hk, ih h]
    · simp only [alookup] at h
      by_cases hj : e.1 == j
      · simp [hj] at h
      · simp only [hj] at h
        simp [aerase, hk, alookup, hj, ih h]

theorem alookup_aset_of_none {κ α : Type} [BEq κ] [LawfulBEq κ]
    (m : List (κ × α)) (k j : κ) (v : α) (hkj : ¬ (k == j)) (h : alookup m j = none) :
    alookup (aset m k v) j = none := by
  induction m with
  | nil => simp [aset, alookup, hkj]
  | cons e rest ih =>
    simp only [alookup] at h
    by_cases hj : e.1 == j
    · simp [hj] at h
    · simp only [hj, if_false, Bool.false_eq_true, if_neg] at h
      by_cases hk : e.1 == k
      · simp [aset, hk, alookup, hkj, hj, h]
      · simp [aset, hk, alookup, hj, ih h]

theorem alookup_aerase_ne {κ α : Type} [BEq κ] [LawfulBEq κ]
    (m : List (κ × α)) (k j : κ) (h : ¬ (j == k)) :
    alookup (aerase m k) j = alookup m j := by
  induction m with
  | nil => rfl
  | cons e rest ih =>
    by_cases he : e.1 == k
    · have : ¬ (e.1 == j) := by
        intro hj
        exact h (by simp_all)
      simp [aerase, he, alookup, this, ih]
    · simp [aerase, he, alookup, ih]

theorem pmUnregisterPort_listeners_self (p : Nat) (s : PMState) :
    alookup (pmUnregisterPort p s).listeners p = none := by
  unfold pmUnregisterPort
  cases h : alookup s.listeners p with
  | none => exact h
  | some owner => simp [alookup_aerase_self]

theorem pmUnregisterPort_listeners_none (q p : Nat) (s : PMState)
    (h : alookup s.listeners p = none) :
    alookup (pmUnregisterPort q s).listeners p = none := by
  unfold pmUnregisterPort
  cases hq : alookup s.listeners q with
  | none => exact h
  | some owner => simpa using alookup_aerase_of_none s.listeners q p h

theorem pmUnregisterPort_queues_none (q p : Nat) (s : PMState)
    (h : alookup s.queues p = none) :
    alookup (pmUnregisterPort q s).queues p = none := by
  unfold pmUnregisterPort
  cases hq : alookup s.listeners q with
  | none => exact h
  | some owner => simpa using alookup_aerase_of_none s.queues q p h

/-- `unregister_port` keeps the invariant "no listener on a port implies no
user queue on it": it removes only whole (listener, queue) pairs. -/
theorem pmUnregisterPort_consistent (q : Nat) (s : PMState)
    (hcons : ∀ r, alookup s.listeners r = none → alookup s.queues r = none) :
    ∀ r, alookup (pmUnregisterPort q s).listeners r = none →
      alookup (pmUnregisterPort q s).queues r = none := by
  intro r
  unfold pmUnregisterPort
  cases hq : alookup s.listeners q with
  | none => exact hcons r
  | some owner =>
    intro hr
    simp only at hr ⊢
    by_cases hrq : (r == q)
    · have hrq' : r = q := by simpa using hrq
      subst hrq'
      simpa using alookup_aerase_self s.queues r
    · have h1 : alookup s.listeners r = none := by
        rw [alookup_aerase_ne s.listeners q r hrq] at hr
        exact hr
      have h2 := hcons r h1
      simpa [alookup_aerase_ne s.queues q r hrq] using h2

/-- After the `unregister_port` of `p`, both of `p`'s mappings are gone
(given the listener/queue consistency invariant). -/
theorem pmUnregisterPort_clears (p : Nat) (s : PMState)
    (hcons : ∀ r, alookup s.listeners r = none → alookup s.queues r = none) :
    alookup (pmUnregisterPort p s).listeners p = none ∧
      alookup (pmUnregisterPort p s).queues p = none := by
  refine ⟨pmUnregisterPort_listeners_self p s, ?_⟩
  exact pmUnregisterPort_consistent p s hcons p (pmUnregisterPort_listeners_self p s)

/-- Absence of a port's listener and queue survives the teardown fold. -/
theorem foldl_unregister_none (l : List Nat) (s : PMState) (p : Nat)
    (h1 : alookup s.listeners p = none) (h2 : alookup s.queues p = none) :
    alookup (l.foldl (fun acc q => pmUnregisterPort q acc) s).listeners p = none ∧
      alookup (l.foldl (fun acc q => pmUnregisterPort q acc) s).queues p = none := by
  induction l generalizing s with
  | nil => exact ⟨h1, h2⟩
  | cons b rest ih =>
    simp only [List.foldl_cons]
    exact ih (pmUnregisterPort b s)
      (pmUnregisterPort_listeners_none b p s h1)
      (pmUnregisterPort_queues_none b p s h2)

/-- The teardown fold of `unregister_frpc` removes the listener and queue of
every port in the iterated snapshot. -/
theorem foldl_unregister_clears (l : List Nat) (s : PMState)
    (hcons : ∀ r, alookup s.listeners r = none → alookup s.queues r = none) :
    ∀ p ∈ l,
      alookup (l.foldl (fun acc q => pmUnregisterPort q acc) s).listeners p = none ∧
      alookup (l.foldl (fun acc q => pmUnregisterPort q acc) s).queues p = none := by
  induction l generalizing s with
  | nil => intro p hp; cases hp
  | cons a rest ih =>
    intro p hp
    have hcons' := pmUnregisterPort_consistent a s hcons
    simp only [List.foldl_cons]
    rcases List.mem_cons.mp hp with hpa | hpr
    · subst hpa
      have h0 := pmUnregisterPort_clears p s hcons
      exact foldl_unregister_none rest (pmUnregisterPort p s) p h0.1 h0.2
    · exact ih (pmUnregisterPort a s) hcons' p hpr

/-! ## Claim C1 — REGISTER_PORT for an already-held port -/

/-- C1 counterexample: on the QUIC Relay, a REGISTER_PORT for port 22 while
22 is already held leaves the registry unchanged but the reply echoes 22,
not the rejection value 0 — so a reply echoing P is *not* sent only when a
fresh listener was bound, contradicting the claim. -/
theorem c1_counterexample :
    quicHandleRegisterPort true ⟨{22}, ∅⟩ 22 = (⟨{22}, ∅⟩, packBangI 2 ++ packBangI 22) ∧
      packBangI 2 ++ packBangI 22 ≠ packBangI 2 ++ packBangI 0 := by
  constructor
  · simp [quicHandleRegisterPort]
  · decide

/-- C1 (amended): a REGISTER_PORT for an already-held port P leaves the
registry unchanged in both Relay variants; the standalone TCP Relay replies
with the port field 0 (rejection), while the QUIC Relay echoes P
(idempotent-success style), so on the QUIC control channel a reply echoing
P does not imply that a new listener was bound.  On a fresh port the QUIC
Relay echoes P exactly when the bind succeeded, and replies 0 on a bind
failure. -/
theorem c1_register_port_reply (bindOk : Bool) (qs : QuicRelayState)
    (port now connId : Nat) (ps : PMState)
    (hheld : port ∈ qs.portListeners)
    (pheld : (alookup ps.listeners port).isSome) :
    (quicHandleRegisterPort bindOk qs port = (qs, packBangI 2 ++ packBangI port)) ∧
    (∀ qs' : QuicRelayState, port ∉ qs'.portListeners →
      quicHandleRegisterPort true qs' port
          = ({ qs' with portListeners := insert port qs'.portListeners },
             packBangI 2 ++ packBangI port) ∧
        quicHandleRegisterPort false qs' port = (qs', packBangI 2 ++ packBangI 0)) ∧
    (pmRegisterPort bindOk connId port ps = (false, ps) ∧
      frpsHandleFrpcData now bindOk connId (.registerPort port) ps
        = (ps, packBangI 3 ++ packBangI 0)) := by
  refine ⟨?_, ?_, ?_⟩
  · simp [quicHandleRegisterPort, hheld]
  · intro qs' hfree
    constructor <;> simp [quicHandleRegisterPort, hfree]
  · have hreg : pmRegisterPort bindOk connId port ps = (false, ps) := by
      unfold pmRegisterPort
      cases h : alookup ps.sessions connId with
      | none => rfl
      | some info => simp [pheld]
    refine ⟨hreg, ?_⟩
    simp [frpsHandleFrpcData, hreg]

/-- C1 witness. -/
theorem c1_register_port_reply_witness :
    (quicHandleRegisterPort true ⟨{22}, ∅⟩ 22 = (⟨{22}, ∅⟩, packBangI 2 ++ packBangI 22)) ∧
    (pmRegisterPort true 7 22 ⟨[(7, ⟨{22}, 0⟩)], [(22, 7)], [(22, [])]⟩
      = (false, ⟨[(7, ⟨{22}, 0⟩)], [(22, 7)], [(22, [])]⟩)) := by
  have h := c1_register_port_reply true ⟨{22}, ∅⟩ 22 0 7
    ⟨[(7, ⟨{22}, 0⟩)], [(22, 7)], [(22, [])]⟩ (by decide) (by decide)
  exact ⟨h.1, h.2.2.1⟩

/-! ## Claim C3 — AgentSession destruction unregisters every owned port -/

/-- C3 counterexample: on the QUIC Relay a `ConnectionTerminated` event
leaves the state untouched (`quic_event_received` only logs a warning), so
a PublishedPort (here port 22) survives the death of its QUIC session,
contradicting the claim's "QUIC connection termination" trigger. -/
theorem c3_counterexample :
    quicEventReceived ⟨{22}, ∅⟩ (.connectionTerminated 0) = ⟨{22}, ∅⟩ ∧
      22 ∈ (quicEventReceived ⟨{22}, ∅⟩ (.connectionTerminated 0)).portListeners := by
  exact ⟨rfl, by decide⟩

/-- C3 (amended): on the standalone TCP Relay, `unregister_frpc` (invoked
on control-channel close, fatal read error, and the 30 s liveness timeout)
removes the listener and the pending-user queue of every port owned by the
session and deletes the session — given the registry invariant that a port
with a queue also has a listener, and reading the handler sequentially (its
non-reentrant `threading.Lock` is elided; the Python code would in fact
self-deadlock re-acquiring it in `unregister_port`).  On the QUIC Relay,
`quic_event_received` performs no teardown on `ConnectionTerminated`, so
QUIC-owned PublishedPorts are not unregistered there. -/
theorem c3_session_teardown (connId : Nat) (s : PMState) (info : TcpSession)
    (h : alookup s.sessions connId = some info)
    (hcons : ∀ r, alookup s.listeners r = none → alookup s.queues r = none) :
    (∀ p ∈ info.ports,
      alookup (pmUnregisterFrpc connId s).listeners p = none ∧
        alookup (pmUnregisterFrpc connId s).queues p = none) ∧
    alookup (pmUnregisterFrpc connId s).sessions connId = none ∧
    (∀ qs : QuicRelayState, ∀ code : Nat,
      quicEventReceived qs (.connectionTerminated code) = qs) := by
  refine ⟨?_, ?_, fun qs code => rfl⟩
  · intro p hp
    have hp' : p ∈ info.ports.sort (· ≤ ·) := (Finset.mem_sort _).mpr hp
    have := foldl_unregister_clears (info.ports.sort (· ≤ ·)) s hcons p hp'
    unfold pmUnregisterFrpc
    simp only [h]
    exact this
  · unfold pmUnregisterFrpc
    simp only [h]
    exact alookup_aerase_self _ connId

/-- C3 witness. -/
theorem c3_session_teardown_witness :
    (∀ p ∈ ({22} : Finset Nat),
      alookup (pmUnregisterFrpc 7 ⟨[(7, ⟨{22}, 0⟩)], [(22, 7)], [(22, [5])]⟩).listeners p
          = none ∧
        alookup (pmUnregisterFrpc 7 ⟨[(7, ⟨{22}, 0⟩)], [(22, 7)], [(22, [5])]⟩).queues p
          = none) ∧
    alookup (pmUnregisterFrpc 7 ⟨[(7, ⟨{22}, 0⟩)], [(22, 7)], [(22, [5])]⟩).sessions 7
      = none := by
  have h := c3_session_teardown 7 ⟨[(7, ⟨{22}, 0⟩)], [(22, 7)], [(22, [5])]⟩ ⟨{22}, 0⟩
    (by decide)
    (by
      intro r hr
      by_cases h22 : (22 : Nat) == r
      · simp [alookup, h22] at hr
      · simp [alookup, h22])
  exact ⟨h.1, h.2.1⟩

/-! ## Claim C6 — incremental scan cursor wrap -/

/-- C6: the code at the failing input.  Once the cursor has reached 65536,
the next `scan_incremental` call does probe from port 1 (the wrap branch),
but the final `self.scan_cursor = end_port` assignment restores the cursor
to 65536, in both the QUIC variant (batch 20000) and the standalone variant
(batch 1000); iterating the QUIC scanner once more probes the same
ports 1..20000 again and leaves the cursor at 65536 again, so later passes
never reach the rest of the range — contrary to the claim (and to the
wrap intent recorded by the code's own `scan_cursor = 1` reset and
"Reset scan cursor, starting from port 1" log line). -/
theorem c6_cursor_stuck_at_wrap :
    ((scanIncrementalQuic (fun _ => false) ⟨∅, ∅, 65536⟩).1.probedLo = 1 ∧
     (scanIncrementalQuic (fun _ => false) ⟨∅, ∅, 65536⟩).1.probedHi = 20001 ∧
     (scanIncrementalQuic (fun _ => false) ⟨∅, ∅, 65536⟩).2.scanCursor = 65536) ∧
    ((scanIncrementalQuic (fun _ => false)
        (scanIncrementalQuic (fun _ => false) ⟨∅, ∅, 65536⟩).2).1.probedLo = 1 ∧
     (scanIncrementalQuic (fun _ => false)
        (scanIncrementalQuic (fun _ => false) ⟨∅, ∅, 65536⟩).2).1.probedHi = 20001 ∧
     (scanIncrementalQuic (fun _ => false)
        (scanIncrementalQuic (fun _ => false) ⟨∅, ∅, 65536⟩).2).2.scanCursor = 65536) ∧
    ((scanIncrementalTcp (fun _ => false) ⟨∅, ∅, 65536⟩).1.probedLo = 1 ∧
     (scanIncrementalTcp (fun _ => false) ⟨∅, ∅, 65536⟩).1.probedHi = 1001 ∧
     (scanIncrementalTcp (fun _ => false) ⟨∅, ∅, 65536⟩).2.scanCursor = 65536) := by
  refine ⟨⟨rfl, rfl, rfl⟩, ⟨rfl, rfl, rfl⟩, rfl, rfl, rfl⟩

/-! ## Claim C8 — ACK gating of Relay-initiated QUIC streams -/

/-- C8: `_forward_data_with_wait` polls the `ready` set 50 times (at 100 ms
intervals); forwarding begins exactly when some poll (hence a received
CMD_CONNECTION_ACK for this stream) finds the stream ready — so no User
byte is forwarded before the ACK — and the User socket is closed, with
forwarding never started, exactly when all 50 polls miss. -/
theorem c8_ack_gate (ready : Nat → Bool) :
    (forwardDataWithWait ready = .forwardingStarts ↔
      ∃ i, 1 ≤ i ∧ i ≤ ackWaitPolls ∧ ready i = true) ∧
    (forwardDataWithWait ready = .userClosed ↔
      ∀ i, 1 ≤ i → i ≤ ackWaitPolls → ready i = false) := by
  cases hfind : (List.range ackWaitPolls).find? (fun i => ready (i + 1)) with
  | some i =>
    have hready : ready (i + 1) = true := by simpa using List.find?_some hfind
    have hi : i < ackWaitPolls := List.mem_range.mp (List.mem_of_find?_eq_some hfind)
    have hres : forwardDataWithWait ready = .forwardingStarts := by
      unfold forwardDataWithWait
      rw [hfind]
      simp [hready]
    constructor
    · rw [hres]
      exact ⟨fun _ => ⟨i + 1, by omega, by omega, hready⟩, fun _ => rfl⟩
    · rw [hres]
      constructor
      · intro h; exact absurd h (by decide)
      · intro hall
        have hc := hall (i + 1) (by omega) (by omega)
        rw [hready] at hc
        exact absurd hc (by decide)
  | none =>
    have hall : ∀ j, 1 ≤ j → j ≤ ackWaitPolls → ready j = false := by
      intro j h1 h2
      have hm := List.find?_eq_none.mp hfind (j - 1) (List.mem_range.mpr (by omega))
      have hj : j - 1 + 1 = j := by omega
      rw [hj] at hm
      simpa using hm
    have h50 : ready ackWaitPolls = false := hall ackWaitPolls (by decide) le_rfl
    have hres : forwardDataWithWait ready = .userClosed := by
      unfold forwardDataWithWait
      rw [hfind]
      simp [h50]
    constructor
    · rw [hres]
      constructor
      · intro h; exact absurd h (by decide)
      · rintro ⟨i, h1, h2, hr⟩
        rw [hall i h1 h2] at hr
        exact absurd hr (by decide)
    · rw [hres]
      exact ⟨fun _ => hall, fun _ => rfl⟩

/-! ## Claim C9 — heartbeat vs pending-user FIFOs -/

/-- C9 counterexample: on the legacy TCP Relay (`frps.py`), an inbound
cmd-1 frame — the heartbeat the legacy Agent emits every 5 s — goes through
`register_frpc('default', ...)`, which installs a *fresh empty* user queue:
with two pending Users queued, processing the heartbeat leaves the FIFO
empty, so an inbound heartbeat does not leave every pending-user FIFO
unchanged. -/
theorem c9_counterexample :
    (legacyHandleFrpcData 10 1 ⟨[(("default"), ⟨[7, 8], 5⟩)]⟩).1
        = ⟨[(("default"), ⟨[], 10⟩)]⟩ ∧
      ([] : List Nat) ≠ [7, 8] := by
  constructor
  · simp [legacyHandleFrpcData, legacyRegisterFrpc, aset]
  · decide

/-- C9 (amended): on the standalone TCP Relay, processing an inbound
HEARTBEAT frame leaves `user_queues` (every port's pending-user FIFO)
unchanged, and the FIFOs are mutated only by the accept callback — which
appends at the tail — and the data-plane dequeue — which pops the head.
On the legacy TCP Relay, an inbound cmd-1 (heartbeat) frame re-registers
the `'default'` session and thereby resets its FIFO to the empty queue. -/
theorem c9_fifo_mutation (now connId port user u : Nat) (bindOk : Bool)
    (s : PMState) (q restQ : List Nat) (ls : LegacyState)
    (hq : alookup s.queues port = some q)
    (hu : alookup s.queues port = some (u :: restQ)) :
    ((frpsHandleFrpcData now bindOk connId .heartbeat s).1.queues = s.queues) ∧
    (alookup (pmAddUserConn port user s).2.queues port = some (q ++ [user])) ∧
    (pmGetUserConn port s = (some u, { s with queues := aset s.queues port restQ })) ∧
    (alookup (legacyHandleFrpcData now 1 ls).1.activeFrps ("default")
      = some ⟨[], now⟩) := by
  refine ⟨?_, ?_, ?_, ?_⟩
  · unfold frpsHandleFrpcData pmUpdateHeartbeat
    cases alookup s.sessions connId <;> rfl
  · unfold pmAddUserConn
    simp [hq, alookup_aset_self]
  · unfold pmGetUserConn
    simp [hu]
  · unfold legacyHandleFrpcData legacyRegisterFrpc
    simp [alookup_aset_self]

/-- C9 witness. -/
theorem c9_fifo_mutation_witness :
    ((frpsHandleFrpcData 3 true 7 .heartbeat
        ⟨[(7, ⟨{22}, 0⟩)], [(22, 7)], [(22, [5, 6])]⟩).1.queues = [(22, [5, 6])]) ∧
    (alookup (pmAddUserConn 22 9
        ⟨[(7, ⟨{22}, 0⟩)], [(22, 7)], [(22, [5, 6])]⟩).2.queues 22
      = some [5, 6, 9]) ∧
    (alookup (legacyHandleFrpcData 3 1 ⟨[]⟩).1.activeFrps ("default")
      = some ⟨[], 3⟩) := by
  have h := c9_fifo_mutation 3 7 22 9 5 true
    ⟨[(7, ⟨{22}, 0⟩)], [(22, 7)], [(22, [5, 6])]⟩ [5, 6] [6] ⟨[]⟩
    (by decide) (by decide)
  exact ⟨h.1, h.2.1, h.2.2.2⟩

/-- Unfolding equation for the standalone incremental scan. -/
theorem scanIncrementalTcp_eq (probe : Nat → Bool) (s : ScannerState) :
    scanIncrementalTcp probe s =
      (⟨scanRangePorts (scanBatchLo tcpBatchSize s.scanCursor)
            (scanBatchHi tcpBatchSize s.scanCursor) probe \ s.activePorts,
        s.activePorts \
          scanRangePorts (scanBatchLo tcpBatchSize s.scanCursor)
            (scanBatchHi tcpBatchSize s.scanCursor) probe,
        scanBatchLo tcpBatchSize s.scanCursor,
        scanBatchHi tcpBatchSize s.scanCursor⟩,
       ⟨scanRangePorts (scanBatchLo tcpBatchSize s.scanCursor)
            (scanBatchHi tcpBatchSize s.scanCursor) probe,
        s.scannedPorts ∪
          scanRangePorts (scanBatchLo tcpBatchSize s.scanCursor)
            (scanBatchHi tcpBatchSize s.scanCursor) probe,
        min (s.scanCursor + tcpBatchSize) 65536⟩) := rfl

/-- Unfolding equation for the QUIC-variant incremental scan. -/
theorem scanIncrementalQuic_eq (probe : Nat → Bool) (s : ScannerState) :
    scanIncrementalQuic probe s =
      (⟨scanRangePorts (scanBatchLo quicBatchSize s.scanCursor)
            (scanBatchHi quicBatchSize s.scanCursor) probe \ s.activePorts,
        s.activePorts.filter
          (fun p => s.scanCursor ≤ p ∧ p < min (s.scanCursor + quicBatchSize) 65536 ∧
            p ∉ scanRangePorts (scanBatchLo quicBatchSize s.scanCursor)
                  (scanBatchHi quicBatchSize s.scanCursor) probe ∧
            p ∉ s.scannedPorts),
        scanBatchLo quicBatchSize s.scanCursor,
        scanBatchHi quicBatchSize s.scanCursor⟩,
       ⟨(s.activePorts ∪
            scanRangePorts (scanBatchLo quicBatchSize s.scanCursor)
              (scanBatchHi quicBatchSize s.scanCursor) probe) \
          s.activePorts.filter
            (fun p => s.scanCursor ≤ p ∧ p < min (s.scanCursor + quicBatchSize) 65536 ∧
              p ∉ scanRangePorts (scanBatchLo quicBatchSize s.scanCursor)
                    (scanBatchHi quicBatchSize s.scanCursor) probe ∧
              p ∉ s.scannedPorts),
        s.scannedPorts ∪
          scanRangePorts (scanBatchLo quicBatchSize s.scanCursor)
            (scanBatchHi quicBatchSize s.scanCursor) probe,
        min (s.scanCursor + quicBatchSize) 65536⟩) := rfl

/-! ## Claim C4 — reconnection re-registers every port -/

/-- C4 counterexample: on a QUIC reconnect, `_re_register_ports` iterates
the `registered_ports` of the *fresh* `FrpcQuicProtocol` that `connect`
just bound — the empty set — not the pre-disconnect set.  With the Agent
holding port 22 before the disconnect, the reconnect's connect trace
contains no REGISTER_PORT step at all, so the Relay never observes a
REGISTER_PORT(22), contradicting the claim for the QUIC variant. -/
theorem c4_counterexample :
    quicConnectTrace quicFreshProtocolRegisteredPorts
      = [.openControlStream, .startHeartbeatLoop, .settleDelay,
         .settleDelay, .startPortMonitor, .startQueueProcessor, .keepAlive] ∧
    QuicClientStep.sendRegisterPort 22 ∉
      quicConnectTrace quicFreshProtocolRegisteredPorts := by
  decide

/-- C4 (amended): in the standalone TCP variant — where `registered_ports`
lives on the `Frpc` client and survives the disconnect — every successful
`connect_to_server` attempt writes a REGISTER_PORT frame for every port of
the registered set, so a reconnect re-registers every previously held
port.  In the QUIC variant, whatever set the bound protocol holds is
re-registered strictly before the scanner monitor task is started; but
`connect` (also on the `_reconnect` path) first rebinds `self.protocol` to
a fresh `FrpcQuicProtocol` whose `registered_ports` is empty, so after a
reconnect no previously held port is re-registered at all. -/
theorem c4_reconnect_reregistration (registered : List Nat) (p : Nat)
    (hp : p ∈ registered) :
    ((packBangI 3 ++ packBangI p) ∈ connectSuccessFrames registered) ∧
    (∃ l1 l2, quicConnectTrace registered
        = l1 ++ QuicClientStep.startPortMonitor :: l2 ∧
      QuicClientStep.sendRegisterPort p ∈ l1) ∧
    (∀ q : Nat, QuicClientStep.sendRegisterPort q ∉
      quicConnectTrace quicFreshProtocolRegisteredPorts) := by
  refine ⟨?_, ?_, ?_⟩
  · exact List.mem_cons_of_mem _
      (List.mem_map_of_mem (fun q : Nat => packBangI 3 ++ packBangI q) hp)
  · refine ⟨[.openControlStream, .startHeartbeatLoop, .settleDelay]
        ++ registered.map QuicClientStep.sendRegisterPort ++ [.settleDelay],
      [.startQueueProcessor, .keepAlive], ?_, ?_⟩
    · simp [quicConnectTrace]
    · simp only [List.mem_append, List.mem_map]
      exact Or.inl (Or.inr ⟨p, hp, rfl⟩)
  · intro q
    simp [quicConnectTrace, quicFreshProtocolRegisteredPorts]

/-- C4 witness. -/
theorem c4_reconnect_reregistration_witness :
    ((packBangI 3 ++ packBangI 22) ∈ connectSuccessFrames [22]) ∧
    (∃ l1 l2, quicConnectTrace [22]
        = l1 ++ QuicClientStep.startPortMonitor :: l2 ∧
      QuicClientStep.sendRegisterPort 22 ∈ l1) ∧
    (∀ q : Nat, QuicClientStep.sendRegisterPort q ∉
      quicConnectTrace quicFreshProtocolRegisteredPorts) :=
  c4_reconnect_reregistration [22] 22 (by decide)

/-! ## Claim C5 — diff scoping of the incremental scan -/

/-- C5 counterexample: with committed active set {5000} and cursor 1, the
standalone incremental scan probes only [1, 1001), yet reports port 5000 —
outside the scanned range and not probed at all — as `closed` and removes
it from the committed set, contradicting "ports outside the scanned range
are neither reported closed nor removed from A". -/
theorem c5_counterexample :
    5000 ∈ (scanIncrementalTcp (fun _ => false) ⟨{5000}, ∅, 1⟩).1.closedPorts ∧
    (scanIncrementalTcp (fun _ => false) ⟨{5000}, ∅, 1⟩).1.probedLo = 1 ∧
    (scanIncrementalTcp (fun _ => false) ⟨{5000}, ∅, 1⟩).1.probedHi = 1001 ∧
    5000 ∉ (scanIncrementalTcp (fun _ => false) ⟨{5000}, ∅, 1⟩).2.activePorts := by
  refine ⟨?_, rfl, rfl, ?_⟩
  · simp [scanIncrementalTcp, scanRangePorts]
  · simp [scanIncrementalTcp, scanRangePorts]

/-- C5 (amended): in the standalone variant, `closed` events are emitted
for every committed-active port not found by this probe — with no scoping
to the scanned range — and the committed set is *replaced* by the probe's
findings; in the QUIC variant, `closed` is scoped to
[cursor, min(cursor+batch, 65536)) but is additionally suppressed for every
port present in the accumulated `scanned_ports` history, and ports found
active are added to the committed set. -/
theorem c5_incremental_diff (probe : Nat → Bool) (s : ScannerState) (p : Nat) :
    (p ∈ (scanIncrementalTcp probe s).1.closedPorts ↔
      p ∈ s.activePorts ∧
        p ∉ scanRangePorts (scanIncrementalTcp probe s).1.probedLo
            (scanIncrementalTcp probe s).1.probedHi probe) ∧
    ((scanIncrementalTcp probe s).2.activePorts
        = scanRangePorts (scanIncrementalTcp probe s).1.probedLo
            (scanIncrementalTcp probe s).1.probedHi probe) ∧
    (p ∈ (scanIncrementalQuic probe s).1.closedPorts ↔
      p ∈ s.activePorts ∧ s.scanCursor ≤ p ∧
        p < min (s.scanCursor + quicBatchSize) 65536 ∧
        p ∉ scanRangePorts (scanIncrementalQuic probe s).1.probedLo
            (scanIncrementalQuic probe s).1.probedHi probe ∧
        p ∉ s.scannedPorts) ∧
    (p ∈ scanRangePorts (scanIncrementalQuic probe s).1.probedLo
        (scanIncrementalQuic probe s).1.probedHi probe →
      p ∈ (scanIncrementalQuic probe s).2.activePorts) := by
  simp only [scanIncrementalTcp_eq, scanIncrementalQuic_eq]
  constructor
  · exact Finset.mem_sdiff
  constructor
  · trivial
  constructor
  · exact Finset.mem_filter
  · intro hmem
    refine Finset.mem_sdiff.mpr ⟨Finset.mem_union_right _ hmem, ?_⟩
    intro hcl
    exact (Finset.mem_filter.mp hcl).2.2.2.1 hmem

/-- C5 witness. -/
theorem c5_incremental_diff_witness :
    3 ∈ (scanIncrementalQuic (fun q => decide (q = 3)) ⟨∅, ∅, 1⟩).2.activePorts := by
  have h := c5_incremental_diff (fun q => decide (q = 3)) ⟨∅, ∅, 1⟩ 3
  refine h.2.2.2 ?_
  simp only [scanIncrementalQuic_eq]
  simp [scanRangePorts, scanBatchLo, scanBatchHi, quicBatchSize,
    Finset.mem_filter, Finset.mem_Ico]

/-! ## Claim C7 — endianness of control-channel integers -/

/-- C7 counterexample: the legacy TCP dialect's heartbeat
(`struct.pack('i', 1)`, native byte order) puts `[1,0,0,0]` on the wire on
the little-endian hosts this repository targets, which is not the
big-endian representation `[0,0,0,1]` of the value 1 — so not every integer
on a control channel is encoded big-endian. -/
theorem c7_counterexample :
    legacyHeartbeatFrame = [1, 0, 0, 0] ∧ legacyHeartbeatFrame ≠ beBytes32 1 := by
  decide

/-- C7 (amended): every integer of the standalone TCP and QUIC control
dialects is written with `struct.pack('!i', ...)`, whose four wire bytes
are exactly the big-endian representation of the (32-bit) value, and the
reader's `struct.unpack('!i', ...)` inverts it, so those peers are
mutually consistent big-endian; the legacy TCP dialect instead uses the
native format `'i'` on both of its peers — mutually consistent, but not
big-endian on little-endian hosts. -/
theorem c7_endianness (x : Nat) (v : Int) (port : Nat)
    (hx : x < 4294967296) (hv1 : -2147483648 ≤ v) (hv2 : v < 2147483648) :
    (packBangI (x : Int) = beBytes32 x) ∧
    (unpackBangI (packBangI v) = v) ∧
    (packBangI 3 ++ packBangI (port : Int) = beBytes32 3 ++ beBytes32 port) ∧
    legacyHeartbeatFrame ≠ beBytes32 1 := by
  have key : ∀ y : Nat, packBangI (y : Int) = beBytes32 y := by
    intro y
    have hmod : ((y : Int) % 4294967296).toNat = y % 4294967296 := by omega
    simp only [packBangI, beBytes32, hmod, Nat.shiftRight_eq_div_pow]
    norm_num
    omega
  refine ⟨key x, ?_, ?_, by decide⟩
  · have hmod : ((v % 4294967296).toNat : Int) = v % 4294967296 := by omega
    simp only [packBangI, unpackBangI, be32word, Nat.shiftRight_eq_div_pow]
    norm_num
    omega
  · have h3 : packBangI 3 = beBytes32 3 := by
      have := key 3
      norm_num at this ⊢
      exact this
    rw [h3, key port]

/-- C7 witness. -/
theorem c7_endianness_witness :
    (packBangI ((258 : Nat) : Int) = beBytes32 258) ∧
    (unpackBangI (packBangI (-5)) = -5) ∧
    (packBangI 3 ++ packBangI ((22 : Nat) : Int) = beBytes32 3 ++ beBytes32 22) ∧
    legacyHeartbeatFrame ≠ beBytes32 1 :=
  c7_endianness 258 (-5) 22 (by norm_num) (by norm_num) (by norm_num)

/-! ## Claim C10 — HTTP header rewriting on the QUIC Agent -/

/-- C10 counterexample: a payload beginning with an invalid UTF-8 byte
(0xFF) followed by an HTTP request does *not* begin with any method token
at the byte level, yet `_rewrite_http_headers` — whose `startswith` check
runs on the UTF-8 decode with errors ignored — still rewrites it (dropping
the 0xFF and replacing the Host value), so the bytes written to the target
differ from the payload, contradicting the claim's byte-level guard. -/
theorem c10_counterexample :
    16 ≤ (255 :: (("GET / HTTP/1.1\r\nHost: a.b\r\n\r\n").data.map Char.toNat)).length ∧
    methodTokens.any (fun t => (t.map Char.toNat).isPrefixOf
        (255 :: (("GET / HTTP/1.1\r\nHost: a.b\r\n\r\n").data.map Char.toNat))) = false ∧
    rewriteHttpHeaders
        (255 :: (("GET / HTTP/1.1\r\nHost: a.b\r\n\r\n").data.map Char.toNat))
      ≠ 255 :: (("GET / HTTP/1.1\r\nHost: a.b\r\n\r\n").data.map Char.toNat) := by
  decide

/-- C10 (amended): the QUIC Agent's forwarding is not byte-transparent.
A payload shorter than 16 bytes, or whose UTF-8 decoding (invalid bytes
ignored) does not begin with one of the method tokens, is written to the
target unchanged; and there exist payloads whose decoding does begin with a
method token and which contain a Host: header line, for which the written
bytes differ from the payload (the header value replaced with the fixed
127.0.0.1 value). -/
theorem c10_rewrite_guard (payload : List Nat)
    (h : payload.length < 16 ∨ httpMethodStart (utf8DecodeIgnore payload) = false) :
    rewriteHttpHeaders payload = payload ∧
    ∃ q : List Nat, 16 ≤ q.length ∧
      httpMethodStart (utf8DecodeIgnore q) = true ∧
      rewriteHttpHeaders q ≠ q := by
  constructor
  · by_cases h16 : payload.length < 16
    · simp [rewriteHttpHeaders, h16]
    · rcases h with h | hm
      · exact absurd h h16
      · simp [rewriteHttpHeaders, h16, hm]
  · refine ⟨("GET / HTTP/1.1\r\nHost: example.com\r\n\r\n").data.map Char.toNat,
      by decide, by decide, by decide⟩

/-- C10 witness. -/
theorem c10_rewrite_guard_witness :
    rewriteHttpHeaders [0] = [0] ∧
    ∃ q : List Nat, 16 ≤ q.length ∧
      httpMethodStart (utf8DecodeIgnore q) = true ∧
      rewriteHttpHeaders q ≠ q :=
  c10_rewrite_guard [0] (Or.inl (by decide))

/-! ## Lemmas for the QUIC data-stream loop (claim C2) -/

theorem pyIdx_natCast (n k : Nat) : pyIdx n (k : Int) = min k n := by
  simp [pyIdx]

theorem drop_min (b : List Nat) (k : Nat) : b.drop (min k b.length) = b.drop k := by
  rcases le_total k b.length with h | h
  · rw [min_eq_left h]
  · rw [min_eq_right h, List.drop_eq_nil_of_le le_rfl, List.drop_eq_nil_of_le h]

theorem take_min (b : List Nat) (k : Nat) : b.take (min k b.length) = b.take k := by
  rcases le_total k b.length with h | h
  · rw [min_eq_left h]
  · rw [min_eq_right h, List.take_length, List.take_of_length_le h]

theorem pySliceFrom_natCast (b : List Nat) (k : Nat) :
    pySliceFrom b (k : Int) = b.drop k := by
  unfold pySliceFrom
  rw [pyIdx_natCast, drop_min]

theorem pySlice_natCast (b : List Nat) (i j : Nat) :
    pySlice b (i : Int) (j : Int) = (b.drop i).take (j - i) := by
  unfold pySlice
  rw [pyIdx_natCast, pyIdx_natCast, take_min]
  rcases le_total i b.length with h | h
  · rw [min_eq_left h, List.drop_take]
  · rw [min_eq_right h,
      List.drop_eq_nil_of_le (le_trans (by simp [List.length_take]) le_rfl),
      List.drop_eq_nil_of_le h]
    simp

theorem pySlice_take (b : List Nat) (k m : Nat) :
    pySlice b (k : Int) (((k + m : Nat) : Int)) = (b.drop k).take m := by
  rw [pySlice_natCast]
  congr 1
  omega

theorem decodeRecordsSpecF_succ (fuel : Nat) (b : List Nat) :
    decodeRecordsSpecF (fuel + 1) b =
      if 8 ≤ b.length then
        if be32word (b.take 4) < 2147483648 ∧ 8 + be32word (b.take 4) ≤ b.length then
          ((b.drop 8).take (be32word (b.take 4)) ::
            (decodeRecordsSpecF fuel (b.drop (8 + be32word (b.take 4)))).1,
           (decodeRecordsSpecF fuel (b.drop (8 + be32word (b.take 4)))).2)
        else ([], b)
      else ([], b) := rfl

theorem wfStreamF_succ (fuel : Nat) (b : List Nat) :
    wfStreamF (fuel + 1) b =
      (if 8 ≤ b.length then
        decide (be32word (b.take 4) < 2147483648) &&
          (if 8 + be32word (b.take 4) ≤ b.length then
            wfStreamF fuel (b.drop (8 + be32word (b.take 4)))
          else true)
      else true) := rfl

theorem decodeRecordsSpecF_step (fuel : Nat) : ∀ b : List Nat, b.length ≤ 8 * fuel →
    decodeRecordsSpecF fuel b = decodeRecordsSpecF (fuel + 1) b := by
  induction fuel with
  | zero =>
    intro b hb
    have hnil : b = [] := List.eq_nil_of_length_eq_zero (by omega)
    subst hnil
    rfl
  | succ fuel ih =>
    intro b hb
    rw [decodeRecordsSpecF_succ fuel b, decodeRecordsSpecF_succ (fuel + 1) b]
    by_cases h8 : 8 ≤ b.length
    · simp only [if_pos h8]
      by_cases hc : be32word (b.take 4) < 2147483648 ∧ 8 + be32word (b.take 4) ≤ b.length
      · simp only [if_pos hc]
        rw [ih (b.drop (8 + be32word (b.take 4))) (by simp only [List.length_drop]; omega)]
      · simp only [if_neg hc]
    · simp only [if_neg h8]

theorem decodeRecordsSpecF_mono (d : Nat) : ∀ fuel (b : List Nat), b.length ≤ 8 * fuel →
    decodeRecordsSpecF fuel b = decodeRecordsSpecF (fuel + d) b := by
  induction d with
  | zero => intro fuel b _; rfl
  | succ d ih =>
    intro fuel b hb
    rw [ih fuel b hb, decodeRecordsSpecF_step (fuel + d) b (by omega)]
    rfl

theorem decodeRecordsSpecF_eq_spec (fuel : Nat) (b : List Nat) (hb : b.length ≤ 8 * fuel) :
    decodeRecordsSpecF fuel b = decodeRecordsSpec b := by
  unfold decodeRecordsSpec
  rcases le_total fuel (b.length + 1) with h | h
  · have hm := decodeRecordsSpecF_mono (b.length + 1 - fuel) fuel b hb
    rw [hm]
    congr 1
    omega
  · have hm := decodeRecordsSpecF_mono (fuel - (b.length + 1)) (b.length + 1) b (by omega)
    rw [show b.length + 1 + (fuel - (b.length + 1)) = fuel from by omega] at hm
    exact hm.symm

theorem wfStreamF_step (fuel : Nat) : ∀ b : List Nat, b.length ≤ 8 * fuel →
    wfStreamF fuel b = wfStreamF (fuel + 1) b := by
  induction fuel with
  | zero =>
    intro b hb
    have hnil : b = [] := List.eq_nil_of_length_eq_zero (by omega)
    subst hnil
    rfl
  | succ fuel ih =>
    intro b hb
    rw [wfStreamF_succ fuel b, wfStreamF_succ (fuel + 1) b]
    by_cases h8 : 8 ≤ b.length
    · simp only [if_pos h8]
      by_cases hc : 8 + be32word (b.take 4) ≤ b.length
      · simp only [if_pos hc]
        rw [ih (b.drop (8 + be32word (b.take 4))) (by simp only [List.length_drop]; omega)]
      · simp only [if_neg hc]
    · simp only [if_neg h8]

theorem wfStreamF_mono (d : Nat) : ∀ fuel (b : List Nat), b.length ≤ 8 * fuel →
    wfStreamF fuel b = wfStreamF (fuel + d) b := by
  induction d with
  | zero => intro fuel b _; rfl
  | succ d ih =>
    intro fuel b hb
    rw [ih fuel b hb, wfStreamF_step (fuel + d) b (by omega)]
    rfl

theorem wfStreamF_eq_wf (fuel : Nat) (b : List Nat) (hb : b.length ≤ 8 * fuel) :
    wfStreamF fuel b = wfStream b := by
  unfold wfStream
  rcases le_total fuel (b.length + 1) with h | h
  · have hm := wfStreamF_mono (b.length + 1 - fuel) fuel b hb
    rw [hm]
    congr 1
    omega
  · have hm := wfStreamF_mono (fuel - (b.length + 1)) (b.length + 1) b (by omega)
    rw [show b.length + 1 + (fuel - (b.length + 1)) = fuel from by omega] at hm
    exact hm.symm

theorem wfStream_head (b : List Nat) (h8 : 8 ≤ b.length) (h : wfStream b = true) :
    be32word (b.take 4) < 2147483648 := by
  unfold wfStream at h
  rw [wfStreamF_succ] at h
  simp only [if_pos h8, Bool.and_eq_true, decide_eq_true_eq] at h
  exact h.1

theorem wfStream_tail (b : List Nat) (h8 : 8 ≤ b.length)
    (hrec : 8 + be32word (b.take 4) ≤ b.length) (h : wfStream b = true) :
    wfStream (b.drop (8 + be32word (b.take 4))) = true := by
  unfold wfStream at h
  rw [wfStreamF_succ] at h
  simp only [if_pos h8, if_pos hrec, Bool.and_eq_true, decide_eq_true_eq] at h
  have h2 := h.2
  rw [wfStreamF_eq_wf b.length (b.drop (8 + be32word (b.take 4)))
      (by simp only [List.length_drop]; omega)] at h2
  exact h2

theorem relayLoopF_succ (fuel : Nat) (b : List Nat) (off : Int) :
    relayLoopF (fuel + 1) b off =
      if off + 8 ≤ (b.length : Int) then
        if (pySlice b off (off + 4)).length = 4 then
          if (b.length : Int) < off + 8 + unpackBangI (pySlice b off (off + 4)) then
            ([], pySliceFrom b off)
          else
            if (pySlice b (off + 4) (off + 8)).length = 4 then
              (pySlice b (off + 8) (off + 8 + unpackBangI (pySlice b off (off + 4))) ::
                (relayLoopF fuel b (off + 8 + unpackBangI (pySlice b off (off + 4)))).1,
               (relayLoopF fuel b (off + 8 + unpackBangI (pySlice b off (off + 4)))).2)
            else ([], [])
        else ([], [])
      else ([], pySliceFrom b off) := rfl

theorem relayLoopF_shift (fuel : Nat) : ∀ (b : List Nat) (o : Nat), o ≤ b.length →
    wfStream (b.drop o) = true →
    relayLoopF fuel b (o : Int) = relayLoopF fuel (b.drop o) 0 := by
  induction fuel with
  | zero =>
    intro b o ho _
    show ([], pySliceFrom b (o : Int)) = ([], pySliceFrom (b.drop o) 0)
    rw [pySliceFrom_natCast]
    have h0 := pySliceFrom_natCast (b.drop o) 0
    norm_num at h0
    rw [h0]
  | succ fuel ih =>
    intro b o ho hwf
    rw [relayLoopF_succ, relayLoopF_succ]
    have hlen : (b.drop o).length = b.length - o := List.length_drop o b
    have lfrom : pySliceFrom b (o : Int) = b.drop o := pySliceFrom_natCast b o
    have rfrom : pySliceFrom (b.drop o) 0 = b.drop o := by
      have h0 := pySliceFrom_natCast (b.drop o) 0
      norm_num at h0
      exact h0
    by_cases hc : ((o : Int) + 8 ≤ (b.length : Int))
    case neg =>
      have hc' : ¬ ((0 : Int) + 8 ≤ ((b.drop o).length : Int)) := by
        rw [hlen]; omega
      rw [if_neg hc, if_neg hc', lfrom, rfrom]
    case pos =>
      have hc' : ((0 : Int) + 8 ≤ ((b.drop o).length : Int)) := by rw [hlen]; omega
      rw [if_pos hc, if_pos hc']
      have h8 : 8 ≤ (b.drop o).length := by rw [hlen]; omega
      have lhdr : pySlice b (o : Int) ((o : Int) + 4) = (b.drop o).take 4 := by
        have e : ((o : Int) + 4) = ((o + 4 : Nat) : Int) := by push_cast; ring
        rw [e]
        exact pySlice_take b o 4
      have rhdr : pySlice (b.drop o) 0 (0 + 4) = (b.drop o).take 4 := by
        have h := pySlice_natCast (b.drop o) 0 4
        norm_num at h ⊢
        exact h
      rw [lhdr, rhdr]
      have hlen4 : ((b.drop o).take 4).length = 4 := by
        rw [List.length_take]; omega
      rw [if_pos hlen4, if_pos hlen4]
      have hword := wfStream_head (b.drop o) h8 hwf
      have hdl : unpackBangI ((b.drop o).take 4)
          = ((be32word ((b.drop o).take 4) : Nat) : Int) := by
        simp only [unpackBangI]
        rw [if_pos hword]
      rw [hdl]
      by_cases hbr : ((b.length : Int) < (o : Int) + 8 + ((be32word ((b.drop o).take 4) : Nat) : Int))
      case pos =>
        have hbr' : (((b.drop o).length : Int) < 0 + 8 + ((be32word ((b.drop o).take 4) : Nat) : Int)) := by
          rw [hlen]; omega
        rw [if_pos hbr, if_pos hbr', lfrom, rfrom]
      case neg =>
        have hbr' : ¬ (((b.drop o).length : Int) < 0 + 8 + ((be32word ((b.drop o).take 4) : Nat) : Int)) := by
          rw [hlen]; omega
        rw [if_neg hbr, if_neg hbr']
        have hle : o + 8 + be32word ((b.drop o).take 4) ≤ b.length := by omega
        have lcid : pySlice b ((o : Int) + 4) ((o : Int) + 8) = ((b.drop o).drop 4).take 4 := by
          have e1 : ((o : Int) + 4) = ((o + 4 : Nat) : Int) := by push_cast; ring
          have e2 : ((o : Int) + 8) = (((o + 4) + 4 : Nat) : Int) := by push_cast; ring
          rw [e1, e2, pySlice_take b (o + 4) 4, List.drop_drop]
        have rcid : pySlice (b.drop o) (0 + 4) (0 + 8) = ((b.drop o).drop 4).take 4 := by
          have h := pySlice_natCast (b.drop o) 4 8
          norm_num at h ⊢
          exact h
        rw [lcid, rcid]
        have hcid4 : (((b.drop o).drop 4).take 4).length = 4 := by
          simp only [List.length_take, List.length_drop]
          omega
        rw [if_pos hcid4, if_pos hcid4]
        have lpay : pySlice b ((o : Int) + 8)
            ((o : Int) + 8 + ((be32word ((b.drop o).take 4) : Nat) : Int))
            = ((b.drop o).drop 8).take (be32word ((b.drop o).take 4)) := by
          have e1 : ((o : Int) + 8) = ((o + 8 : Nat) : Int) := by push_cast; ring
          have e2 : ((o : Int) + 8 + ((be32word ((b.drop o).take 4) : Nat) : Int))
              = (((o + 8) + be32word ((b.drop o).take 4) : Nat) : Int) := by push_cast; ring
          rw [e2, e1, pySlice_take b (o + 8) (be32word ((b.drop o).take 4)), List.drop_drop]
        have rpay : pySlice (b.drop o) (0 + 8)
            (0 + 8 + ((be32word ((b.drop o).take 4) : Nat) : Int))
            = ((b.drop o).drop 8).take (be32word ((b.drop o).take 4)) := by
          have e1 : ((0 : Int) + 8) = ((8 : Nat) : Int) := by norm_num
          have e2 : ((0 : Int) + 8 + ((be32word ((b.drop o).take 4) : Nat) : Int))
              = ((8 + be32word ((b.drop o).take 4) : Nat) : Int) := by push_cast; ring
          rw [e2, e1, pySlice_take (b.drop o) 8 (be32word ((b.drop o).take 4))]
        rw [lpay, rpay]
        have hwfd := wfStream_tail (b.drop o) h8 (by rw [hlen]; omega) hwf
        have hwf1 : wfStream (b.drop (o + 8 + be32word ((b.drop o).take 4))) = true := by
          have hd := hwfd
          rw [List.drop_drop (8 + be32word ((b.drop o).take 4)) o b] at hd
          rw [show o + (8 + be32word ((b.drop o).take 4))
              = o + 8 + be32word ((b.drop o).take 4) from by omega] at hd
          exact hd
        have ihL := ih b (o + 8 + be32word ((b.drop o).take 4)) (by omega) hwf1
        have ihR := ih (b.drop o) (8 + be32word ((b.drop o).take 4)) (by rw [hlen]; omega) hwfd
        have erecL : ((o : Int) + 8 + ((be32word ((b.drop o).take 4) : Nat) : Int))
            = ((o + 8 + be32word ((b.drop o).take 4) : Nat) : Int) := by push_cast; ring
        have erecR : ((0 : Int) + 8 + ((be32word ((b.drop o).take 4) : Nat) : Int))
            = ((8 + be32word ((b.drop o).take 4) : Nat) : Int) := by push_cast; ring
        rw [erecL, erecR, ihL, ihR,
          List.drop_drop (8 + be32word ((b.drop o).take 4)) o b,
          show o + (8 + be32word ((b.drop o).take 4))
              = o + 8 + be32word ((b.drop o).take 4) from by omega]

theorem decodeRecordsSpec_cons (b : List Nat) (h8 : 8 ≤ b.length)
    (hword : be32word (b.take 4) < 2147483648)
    (hle : 8 + be32word (b.take 4) ≤ b.length) :
    decodeRecordsSpec b =
      ((b.drop 8).take (be32word (b.take 4)) ::
        (decodeRecordsSpec (b.drop (8 + be32word (b.take 4)))).1,
       (decodeRecordsSpec (b.drop (8 + be32word (b.take 4)))).2) := by
  have h1 : decodeRecordsSpec b = decodeRecordsSpecF (b.length + 1) b := rfl
  rw [h1, decodeRecordsSpecF_succ, if_pos h8, if_pos ⟨hword, hle⟩,
    decodeRecordsSpecF_eq_spec b.length _ (by simp only [List.length_drop]; omega)]

theorem decodeRecordsSpec_stop (b : List Nat)
    (h : b.length < 8 ∨
      ¬ (be32word (b.take 4) < 2147483648 ∧ 8 + be32word (b.take 4) ≤ b.length)) :
    decodeRecordsSpec b = ([], b) := by
  have h1 : decodeRecordsSpec b = decodeRecordsSpecF (b.length + 1) b := rfl
  rw [h1, decodeRecordsSpecF_succ]
  rcases h with h | h
  · rw [if_neg (by omega)]
  · by_cases h8 : 8 ≤ b.length
    · rw [if_pos h8, if_neg h]
    · rw [if_neg h8]

theorem relayLoopF_decode (fuel : Nat) : ∀ b : List Nat, wfStream b = true →
    b.length ≤ 8 * fuel → relayLoopF fuel b 0 = decodeRecordsSpec b := by
  induction fuel with
  | zero =>
    intro b _ hb
    have hnil : b = [] := List.eq_nil_of_length_eq_zero (by omega)
    subst hnil
    rfl
  | succ fuel ih =>
    intro b hwf hb
    rw [relayLoopF_succ]
    by_cases h8 : 8 ≤ b.length
    case neg =>
      rw [if_neg (show ¬ ((0 : Int) + 8 ≤ (b.length : Int)) from by omega)]
      have rfrom : pySliceFrom b 0 = b := by
        have h := pySliceFrom_natCast b 0
        norm_num at h
        exact h
      rw [rfrom, decodeRecordsSpec_stop b (Or.inl (by omega))]
    case pos =>
      rw [if_pos (show ((0 : Int) + 8 ≤ (b.length : Int)) from by omega)]
      have rhdr : pySlice b 0 (0 + 4) = b.take 4 := by
        have h := pySlice_natCast b 0 4
        norm_num at h ⊢
        exact h
      rw [rhdr]
      have hlen4 : (b.take 4).length = 4 := by rw [List.length_take]; omega
      rw [if_pos hlen4]
      have hword := wfStream_head b h8 hwf
      have hdl : unpackBangI (b.take 4) = ((be32word (b.take 4) : Nat) : Int) := by
        simp only [unpackBangI]
        rw [if_pos hword]
      rw [hdl]
      by_cases hbr : ((b.length : Int) < 0 + 8 + ((be32word (b.take 4) : Nat) : Int))
      case pos =>
        rw [if_pos hbr]
        have rfrom : pySliceFrom b 0 = b := by
          have h := pySliceFrom_natCast b 0
          norm_num at h
          exact h
        rw [rfrom, decodeRecordsSpec_stop b (Or.inr (by intro hcon; omega))]
      case neg =>
        rw [if_neg hbr]
        have hle : 8 + be32word (b.take 4) ≤ b.length := by omega
        have rcid : pySlice b (0 + 4) (0 + 8) = (b.drop 4).take 4 := by
          have h := pySlice_natCast b 4 8
          norm_num at h ⊢
          exact h
        rw [rcid]
        have hcid4 : ((b.drop 4).take 4).length = 4 := by
          simp only [List.length_take, List.length_drop]
          omega
        rw [if_pos hcid4]
        have rpay : pySlice b (0 + 8) (0 + 8 + ((be32word (b.take 4) : Nat) : Int))
            = (b.drop 8).take (be32word (b.take 4)) := by
          have e1 : ((0 : Int) + 8) = ((8 : Nat) : Int) := by norm_num
          have e2 : ((0 : Int) + 8 + ((be32word (b.take 4) : Nat) : Int))
              = ((8 + be32word (b.take 4) : Nat) : Int) := by push_cast; ring
          rw [e2, e1, pySlice_take b 8 (be32word (b.take 4))]
        rw [rpay]
        have e3 : ((0 : Int) + 8 + ((be32word (b.take 4) : Nat) : Int))
            = ((8 + be32word (b.take 4) : Nat) : Int) := by push_cast; ring
        have hwfd := wfStream_tail b h8 hle hwf
        have hshift := relayLoopF_shift fuel b (8 + be32word (b.take 4)) hle hwfd
        have hih := ih (b.drop (8 + be32word (b.take 4))) hwfd
          (by simp only [List.length_drop]; omega)
        rw [e3, hshift, hih, decodeRecordsSpec_cons b h8 hword hle]

/-! ## Claim C2 — data-stream reassembly -/

/-- C2 counterexample: a chunk holding the header `{len = 5, conn_id = 0}`
followed by only 2 of the 5 payload bytes.  The Relay receiver buffers it
and writes nothing; but the Agent-side QUIC receiver — which has no
reassembly buffer — writes the truncated 2-byte payload to the target
socket and drops the record, so "the receiver (Relay or Agent) writes
exactly len payload bytes and a partial record causes no write" fails on
the Agent side. -/
theorem c2_counterexample :
    unpackBangI ((packBangI 5 ++ packBangI 0 ++ [65, 66]).take 4) = 5 ∧
    (packBangI 5 ++ packBangI 0 ++ [65, 66]).length = 10 ∧
    agentHandleDataChunk (packBangI 5 ++ packBangI 0 ++ [65, 66]) = [[65, 66]] ∧
    relayHandleDataChunk [] (packBangI 5 ++ packBangI 0 ++ [65, 66])
      = ([], packBangI 5 ++ packBangI 0 ++ [65, 66]) := by
  decide

/-- C2 (amended): the *Relay-side* QUIC receiver appends each chunk to the
per-stream reassembly buffer and behaves exactly as the specification's
record decoder: it writes the payloads of the complete records at the
front of the buffer — each write exactly `len` bytes — and retains any
partial record unharmed as the new buffer (for every buffer whose length
fields are non-negative).  The Agent-side QUIC receiver has no reassembly
buffer and may write truncated payloads (see the counterexample). -/
theorem c2_relay_reassembly (buf chunk : List Nat)
    (hwf : wfStream (buf ++ chunk) = true) :
    relayHandleDataChunk buf chunk = decodeRecordsSpec (buf ++ chunk) := by
  unfold relayHandleDataChunk
  exact relayLoopF_decode ((buf ++ chunk).length + 1) (buf ++ chunk) hwf (by omega)

/-- C2 witness: a 4-byte partial header in the buffer, completed by the
next chunk into one full record `{len = 1, conn_id = 0, payload = [65]}`. -/
theorem c2_relay_reassembly_witness :
    wfStream (packBangI 1 ++ (packBangI 0 ++ [65])) = true ∧
    relayHandleDataChunk (packBangI 1) (packBangI 0 ++ [65])
      = decodeRecordsSpec (packBangI 1 ++ (packBangI 0 ++ [65])) :=
  ⟨by decide, c2_relay_reassembly (packBangI 1) (packBangI 0 ++ [65]) (by decide)⟩

end Frp
